import Mathlib

/-!
Verification of the fuzzylogic library (src/lib.rs).

The library works on `Truth = f32`.  We embed `f32` as an extended-rational
type: a finite rational value, positive infinity, negative infinity, or NaN.
Arithmetic follows IEEE-754 special-value propagation (NaN absorbs, signed
infinities combine in the usual way, division by zero yields an infinity or
NaN); rounding of finite results and the sign of zero are idealised away,
which no operator of the library observes (a non-finite intermediate is only
ever mapped to `none`, and comparisons treat the zeroes equally).
-/

inductive F32 where
  | fin : ℚ → F32
  | inf : F32
  | neginf : F32
  | nan : F32
deriving DecidableEq

def F32.isNan : F32 → Bool
  | .nan => true
  | _ => false

def F32.isInfinite : F32 → Bool
  | .inf => true
  | .neginf => true
  | _ => false

def F32.isFinite : F32 → Bool
  | .fin _ => true
  | _ => false

def F32.add : F32 → F32 → F32
  | .nan, _ => .nan
  | _, .nan => .nan
  | .inf, .neginf => .nan
  | .neginf, .inf => .nan
  | .inf, _ => .inf
  | _, .inf => .inf
  | .neginf, _ => .neginf
  | _, .neginf => .neginf
  | .fin a, .fin b => .fin (a + b)

def F32.neg : F32 → F32
  | .fin a => .fin (-a)
  | .inf => .neginf
  | .neginf => .inf
  | .nan => .nan

def F32.sub (a b : F32) : F32 := F32.add a (F32.neg b)

def F32.mul : F32 → F32 → F32
  | .nan, _ => .nan
  | _, .nan => .nan
  | .fin a, .fin b => .fin (a * b)
  | .inf, .fin b => if b = 0 then .nan else if 0 < b then .inf else .neginf
  | .fin a, .inf => if a = 0 then .nan else if 0 < a then .inf else .neginf
  | .neginf, .fin b => if b = 0 then .nan else if 0 < b then .neginf else .inf
  | .fin a, .neginf => if a = 0 then .nan else if 0 < a then .neginf else .inf
  | .inf, .inf => .inf
  | .inf, .neginf => .neginf
  | .neginf, .inf => .neginf
  | .neginf, .neginf => .inf

def F32.div : F32 → F32 → F32
  | .nan, _ => .nan
  | _, .nan => .nan
  | .inf, .inf => .nan
  | .inf, .neginf => .nan
  | .neginf, .inf => .nan
  | .neginf, .neginf => .nan
  | .fin _, .inf => .fin 0
  | .fin _, .neginf => .fin 0
  | .inf, .fin b => if 0 ≤ b then .inf else .neginf
  | .neginf, .fin b => if 0 ≤ b then .neginf else .inf
  | .fin a, .fin b =>
      if b = 0 then (if a = 0 then .nan else if 0 < a then .inf else .neginf)
      else .fin (a / b)

/-- The Rust comparison `a > b` on floats: false whenever either side is NaN. -/
def F32.gt : F32 → F32 → Bool
  | .nan, _ => false
  | _, .nan => false
  | .inf, .inf => false
  | .inf, _ => true
  | .neginf, _ => false
  | .fin _, .inf => false
  | .fin _, .neginf => true
  | .fin a, .fin b => decide (b < a)

instance : Add F32 := ⟨F32.add⟩
instance : Sub F32 := ⟨F32.sub⟩
instance : Mul F32 := ⟨F32.mul⟩
instance : Div F32 := ⟨F32.div⟩

/-- `true` on `some x` exactly when `x` is a finite value; `true` on `none`. -/
def allFinite : Option F32 → Bool
  | some x => x.isFinite
  | none => true

/-! ## The library, embedded from src/lib.rs -/

/-- The value `if a > b { b } else { a }` produced inside `zadeh::min`. -/
def zadeh.minRaw (a b : F32) : F32 := if F32.gt a b then b else a

/-- `zadeh::min`: returns `None` on NaN or infinite input, else the smaller value
(`b` when `a > b`, else `a`). -/
def zadeh.min (a b : F32) : Option F32 :=
  if a.isNan || b.isNan then none
  else if a.isInfinite || b.isInfinite then none
  else some (zadeh.minRaw a b)

/-- `zadeh::or`: semantic sugar delegating to `zadeh::min`. -/
def zadeh.or (a b : F32) : Option F32 := zadeh.min a b

/-- The value `if a > b { a } else { b }` produced inside `zadeh::max`. -/
def zadeh.maxRaw (a b : F32) : F32 := if F32.gt a b then a else b

/-- `zadeh::max`: returns `None` on NaN or infinite input, else the larger value
(`a` when `a > b`, else `b`). -/
def zadeh.max (a b : F32) : Option F32 :=
  if a.isNan || b.isNan then none
  else if a.isInfinite || b.isInfinite then none
  else some (zadeh.maxRaw a b)

/-- `zadeh::and`: semantic sugar delegating to `zadeh::max`. -/
def zadeh.and (a b : F32) : Option F32 := zadeh.max a b

/-- The expression `(a * b) / (1.0 + ((1.0 - a) * (1.0 - b)))` of `einstein::product`. -/
def einstein.productRaw (a b : F32) : F32 :=
  (a * b) / (F32.fin 1 + ((F32.fin 1 - a) * (F32.fin 1 - b)))

/-- `einstein::product`: `None` on NaN or infinite input; computes the product
expression, `None` if that result is NaN or infinite, else `Some` of it. -/
def einstein.product (a b : F32) : Option F32 :=
  if a.isNan || b.isNan then none
  else if a.isInfinite || b.isInfinite then none
  else
    let result := einstein.productRaw a b
    if result.isNan || result.isInfinite then none else some result

/-- `einstein::or`: semantic sugar delegating to `einstein::product`. -/
def einstein.or (a b : F32) : Option F32 := einstein.product a b

/-- The expression `(a + b) / (1.0 + (a * b))` of `einstein::sum`. -/
def einstein.sumRaw (a b : F32) : F32 :=
  (a + b) / (F32.fin 1 + (a * b))

/-- `einstein::sum`: `None` on NaN or infinite input; computes the sum
expression, `None` if that result is NaN or infinite, else `Some` of it. -/
def einstein.sum (a b : F32) : Option F32 :=
  if a.isNan || b.isNan then none
  else if a.isInfinite || b.isInfinite then none
  else
    let result := einstein.sumRaw a b
    if result.isNan || result.isInfinite then none else some result

/-- `einstein::and`: semantic sugar delegating to `einstein::sum`. -/
def einstein.and (a b : F32) : Option F32 := einstein.sum a b

/-- The expression `((weight * x) + ((1.0 - weight) * (a + b))) / 2.0` of
`werner::weighted_min`, where `x` is the matched Zadeh minimum. -/
def werner.weightedRaw (weight a b x : F32) : F32 :=
  ((weight * x) + ((F32.fin 1 - weight) * (a + b))) / F32.fin 2

/-- `werner::weighted_min`: matches on `zadeh::min(a, b)`; on `None` returns
`None`, on `Some x` computes the weighted expression, `None` if that result is
NaN or infinite, else `Some` of it. -/
def werner.weighted_min (weight a b : F32) : Option F32 :=
  match zadeh.min a b with
  | some x =>
      let result := werner.weightedRaw weight a b x
      if result.isNan || result.isInfinite then none else some result
  | none => none

/-- `werner::fuzzy_and`: semantic sugar delegating to `werner::weighted_min`. -/
def werner.fuzzy_and (weight a b : F32) : Option F32 :=
  werner.weighted_min weight a b

/-! ## Basic computation lemmas -/

@[simp] lemma F32.fin_add_fin (a b : ℚ) : F32.fin a + F32.fin b = F32.fin (a + b) := rfl

@[simp] lemma F32.fin_mul_fin (a b : ℚ) : F32.fin a * F32.fin b = F32.fin (a * b) := rfl

@[simp] lemma F32.fin_sub_fin (a b : ℚ) : F32.fin a - F32.fin b = F32.fin (a - b) := by
  show F32.fin (a + -b) = F32.fin (a - b)
  rw [← sub_eq_add_neg]

lemma F32.fin_div_fin (a b : ℚ) :
    F32.fin a / F32.fin b =
      if b = 0 then (if a = 0 then F32.nan else if 0 < a then F32.inf else F32.neginf)
      else F32.fin (a / b) := rfl

@[simp] lemma F32.isNan_fin (q : ℚ) : (F32.fin q).isNan = false := rfl
@[simp] lemma F32.isInfinite_fin (q : ℚ) : (F32.fin q).isInfinite = false := rfl
@[simp] lemma F32.isFinite_fin (q : ℚ) : (F32.fin q).isFinite = true := rfl
@[simp] lemma F32.isNan_nan : F32.nan.isNan = true := rfl
@[simp] lemma F32.isNan_inf : F32.inf.isNan = false := rfl
@[simp] lemma F32.isNan_neginf : F32.neginf.isNan = false := rfl
@[simp] lemma F32.isInfinite_inf : F32.inf.isInfinite = true := rfl
@[simp] lemma F32.isInfinite_neginf : F32.neginf.isInfinite = true := rfl
@[simp] lemma F32.isInfinite_nan : F32.nan.isInfinite = false := rfl
@[simp] lemma F32.isFinite_nan : F32.nan.isFinite = false := rfl
@[simp] lemma F32.isFinite_inf : F32.inf.isFinite = false := rfl
@[simp] lemma F32.isFinite_neginf : F32.neginf.isFinite = false := rfl

lemma F32.nan_or_infinite (r : F32) : (r.isNan || r.isInfinite) = !r.isFinite := by
  cases r <;> rfl

lemma guard_some (r : F32) :
    (if r.isNan || r.isInfinite then none else some r) =
      if r.isFinite then some r else none := by
  cases r <;> rfl

lemma zadeh.minRaw_fin (qa qb : ℚ) :
    zadeh.minRaw (F32.fin qa) (F32.fin qb) =
      if qb < qa then F32.fin qb else F32.fin qa := by
  simp [zadeh.minRaw, F32.gt]

lemma zadeh.min_fin (qa qb : ℚ) :
    zadeh.min (F32.fin qa) (F32.fin qb) =
      some (if qb < qa then F32.fin qb else F32.fin qa) := by
  simp [zadeh.min, zadeh.minRaw_fin]

lemma zadeh.maxRaw_fin (qa qb : ℚ) :
    zadeh.maxRaw (F32.fin qa) (F32.fin qb) =
      if qb < qa then F32.fin qa else F32.fin qb := by
  simp [zadeh.maxRaw, F32.gt]

lemma zadeh.max_fin (qa qb : ℚ) :
    zadeh.max (F32.fin qa) (F32.fin qb) =
      some (if qb < qa then F32.fin qa else F32.fin qb) := by
  simp [zadeh.max, zadeh.maxRaw_fin]

lemma einstein.productRaw_fin (qa qb : ℚ) :
    einstein.productRaw (F32.fin qa) (F32.fin qb) =
      F32.fin (qa * qb) / F32.fin (1 + (1 - qa) * (1 - qb)) := by
  simp [einstein.productRaw]

lemma einstein.product_fin (qa qb : ℚ) :
    einstein.product (F32.fin qa) (F32.fin qb) =
      if 1 + (1 - qa) * (1 - qb) = 0 then none
      else some (F32.fin (qa * qb / (1 + (1 - qa) * (1 - qb)))) := by
  have h := guard_some (einstein.productRaw (F32.fin qa) (F32.fin qb))
  simp only [einstein.product, F32.isNan_fin, F32.isInfinite_fin, Bool.or_self,
    Bool.false_eq_true, if_false, h, einstein.productRaw_fin, F32.fin_div_fin]
  by_cases hd : 1 + (1 - qa) * (1 - qb) = 0
  · simp only [hd, if_true]
    split_ifs <;> simp_all
  · simp [hd]

lemma einstein.sumRaw_fin (qa qb : ℚ) :
    einstein.sumRaw (F32.fin qa) (F32.fin qb) =
      F32.fin (qa + qb) / F32.fin (1 + qa * qb) := by
  simp [einstein.sumRaw]

lemma einstein.sum_fin (qa qb : ℚ) :
    einstein.sum (F32.fin qa) (F32.fin qb) =
      if 1 + qa * qb = 0 then none
      else some (F32.fin ((qa + qb) / (1 + qa * qb))) := by
  have h := guard_some (einstein.sumRaw (F32.fin qa) (F32.fin qb))
  simp only [einstein.sum, F32.isNan_fin, F32.isInfinite_fin, Bool.or_self,
    Bool.false_eq_true, if_false, h, einstein.sumRaw_fin, F32.fin_div_fin]
  by_cases hd : 1 + qa * qb = 0
  · simp only [hd, if_true]
    split_ifs <;> simp_all
  · simp [hd]

lemma werner.weightedRaw_fin (w qa qb x : ℚ) :
    werner.weightedRaw (F32.fin w) (F32.fin qa) (F32.fin qb) (F32.fin x) =
      F32.fin ((w * x + (1 - w) * (qa + qb)) / 2) := by
  simp only [werner.weightedRaw, F32.fin_mul_fin, F32.fin_sub_fin, F32.fin_add_fin,
    F32.fin_div_fin]
  norm_num

lemma werner.weighted_min_fin (w qa qb : ℚ) :
    werner.weighted_min (F32.fin w) (F32.fin qa) (F32.fin qb) =
      some (F32.fin ((w * (if qb < qa then qb else qa) + (1 - w) * (qa + qb)) / 2)) := by
  rcases lt_or_le qb qa with h | h
  · simp [werner.weighted_min, zadeh.min_fin, h, werner.weightedRaw_fin]
  · simp [werner.weighted_min, zadeh.min_fin, not_lt.mpr h, werner.weightedRaw_fin]

/-! ## Non-finiteness propagation -/

lemma F32.not_finite_iff (r : F32) :
    r.isFinite = false ↔ (r.isNan = true ∨ r.isInfinite = true) := by
  cases r <;> simp

lemma F32.mul_nonfinite_left (w x : F32) (hw : w.isFinite = false) :
    (F32.mul w x).isFinite = false := by
  cases w <;> cases x <;>
    simp_all [F32.mul] <;> split_ifs <;> rfl

lemma F32.sub_fin_nonfinite (q : ℚ) (w : F32) (hw : w.isFinite = false) :
    (F32.sub (F32.fin q) w).isFinite = false := by
  cases w <;> simp_all [F32.sub, F32.neg, F32.add]

lemma F32.add_nonfinite (r s : F32) (hr : r.isFinite = false)
    (hs : s.isFinite = false) : (F32.add r s).isFinite = false := by
  cases r <;> cases s <;> simp_all [F32.add]

lemma F32.div_fin_nonfinite (r : F32) (d : ℚ) (hr : r.isFinite = false) :
    (F32.div r (F32.fin d)).isFinite = false := by
  cases r <;> simp_all [F32.div] <;> split_ifs <;> rfl

lemma werner.weightedRaw_nonfinite (w x : F32) (qa qb : ℚ)
    (hw : w.isFinite = false) :
    (werner.weightedRaw w (F32.fin qa) (F32.fin qb) x).isFinite = false := by
  have h1 := F32.mul_nonfinite_left w x hw
  have h2 := F32.sub_fin_nonfinite 1 w hw
  have h3 := F32.mul_nonfinite_left _ (F32.add (F32.fin qa) (F32.fin qb)) h2
  have h4 := F32.add_nonfinite _ _ h1 h3
  exact F32.div_fin_nonfinite _ 2 h4

/-! ## `none`-iff characterisations -/

lemma bool_imp_iff (p q : Bool) :
    ((p = false → q = true) ↔ (p = true ∨ q = true)) := by
  cases p <;> cases q <;> simp

lemma guard_none_iff (r : F32) :
    ((if r.isNan || r.isInfinite then none else some r) = none) ↔
      (r.isNan = true ∨ r.isInfinite = true) := by
  cases r <;> simp

lemma zadeh.min_none_iff (a b : F32) :
    zadeh.min a b = none ↔
      (a.isNan = true ∨ a.isInfinite = true ∨ b.isNan = true ∨ b.isInfinite = true ∨
        (zadeh.minRaw a b).isNan = true ∨ (zadeh.minRaw a b).isInfinite = true) := by
  cases a <;> cases b <;>
    first
      | (rw [zadeh.min_fin, zadeh.minRaw_fin]; split_ifs <;> simp)
      | simp [zadeh.min]

lemma zadeh.max_none_iff (a b : F32) :
    zadeh.max a b = none ↔
      (a.isNan = true ∨ a.isInfinite = true ∨ b.isNan = true ∨ b.isInfinite = true ∨
        (zadeh.maxRaw a b).isNan = true ∨ (zadeh.maxRaw a b).isInfinite = true) := by
  cases a <;> cases b <;>
    first
      | (rw [zadeh.max_fin, zadeh.maxRaw_fin]; split_ifs <;> simp)
      | simp [zadeh.max]

lemma einstein.product_none_iff (a b : F32) :
    einstein.product a b = none ↔
      (a.isNan = true ∨ a.isInfinite = true ∨ b.isNan = true ∨ b.isInfinite = true ∨
        (einstein.productRaw a b).isNan = true ∨
        (einstein.productRaw a b).isInfinite = true) := by
  cases a <;> cases b <;> simp [einstein.product, guard_none_iff]
  exact bool_imp_iff _ _

lemma einstein.sum_none_iff (a b : F32) :
    einstein.sum a b = none ↔
      (a.isNan = true ∨ a.isInfinite = true ∨ b.isNan = true ∨ b.isInfinite = true ∨
        (einstein.sumRaw a b).isNan = true ∨
        (einstein.sumRaw a b).isInfinite = true) := by
  cases a <;> cases b <;> simp [einstein.sum, guard_none_iff]
  exact bool_imp_iff _ _

lemma werner.weighted_min_eq_guard (w : F32) (qa qb : ℚ) :
    werner.weighted_min w (F32.fin qa) (F32.fin qb) =
      (if (werner.weightedRaw w (F32.fin qa) (F32.fin qb)
            (zadeh.minRaw (F32.fin qa) (F32.fin qb))).isNan ||
          (werner.weightedRaw w (F32.fin qa) (F32.fin qb)
            (zadeh.minRaw (F32.fin qa) (F32.fin qb))).isInfinite
        then none
        else some (werner.weightedRaw w (F32.fin qa) (F32.fin qb)
          (zadeh.minRaw (F32.fin qa) (F32.fin qb)))) := rfl

lemma werner.weighted_min_none_iff (w a b : F32) :
    werner.weighted_min w a b = none ↔
      (w.isNan = true ∨ w.isInfinite = true ∨
        a.isNan = true ∨ a.isInfinite = true ∨ b.isNan = true ∨ b.isInfinite = true ∨
        (werner.weightedRaw w a b (zadeh.minRaw a b)).isNan = true ∨
        (werner.weightedRaw w a b (zadeh.minRaw a b)).isInfinite = true) := by
  cases a with
  | fin qa =>
      cases b with
      | fin qb =>
          rw [werner.weighted_min_eq_guard, guard_none_iff]
          cases w with
          | fin qw => simp
          | inf =>
              have h := werner.weightedRaw_nonfinite F32.inf
                (zadeh.minRaw (F32.fin qa) (F32.fin qb)) qa qb rfl
              rw [F32.not_finite_iff] at h
              simp [h]
          | neginf =>
              have h := werner.weightedRaw_nonfinite F32.neginf
                (zadeh.minRaw (F32.fin qa) (F32.fin qb)) qa qb rfl
              rw [F32.not_finite_iff] at h
              simp [h]
          | nan =>
              have h := werner.weightedRaw_nonfinite F32.nan
                (zadeh.minRaw (F32.fin qa) (F32.fin qb)) qa qb rfl
              rw [F32.not_finite_iff] at h
              simp [h]
      | inf => simp [werner.weighted_min, zadeh.min]
      | neginf => simp [werner.weighted_min, zadeh.min]
      | nan => simp [werner.weighted_min, zadeh.min]
  | inf => simp [werner.weighted_min, zadeh.min]
  | neginf => simp [werner.weighted_min, zadeh.min]
  | nan => simp [werner.weighted_min, zadeh.min]

lemma allFinite_guard (r : F32) :
    allFinite (if r.isNan || r.isInfinite then none else some r) = true := by
  cases r <;> rfl

lemma zadeh.min_allFinite (a b : F32) : allFinite (zadeh.min a b) = true := by
  cases a with
  | fin qa =>
      cases b with
      | fin qb =>
          show (zadeh.minRaw (F32.fin qa) (F32.fin qb)).isFinite = true
          rw [zadeh.minRaw_fin]
          split_ifs <;> rfl
      | inf => rfl
      | neginf => rfl
      | nan => rfl
  | inf => cases b <;> rfl
  | neginf => cases b <;> rfl
  | nan => cases b <;> rfl

lemma zadeh.max_allFinite (a b : F32) : allFinite (zadeh.max a b) = true := by
  cases a with
  | fin qa =>
      cases b with
      | fin qb =>
          show (zadeh.maxRaw (F32.fin qa) (F32.fin qb)).isFinite = true
          rw [zadeh.maxRaw_fin]
          split_ifs <;> rfl
      | inf => rfl
      | neginf => rfl
      | nan => rfl
  | inf => cases b <;> rfl
  | neginf => cases b <;> rfl
  | nan => cases b <;> rfl

lemma einstein.product_allFinite (a b : F32) :
    allFinite (einstein.product a b) = true := by
  cases a <;> cases b <;> first | exact allFinite_guard _ | rfl

lemma einstein.sum_allFinite (a b : F32) :
    allFinite (einstein.sum a b) = true := by
  cases a <;> cases b <;> first | exact allFinite_guard _ | rfl

lemma werner.weighted_min_allFinite (w a b : F32) :
    allFinite (werner.weighted_min w a b) = true := by
  cases a <;> cases b <;>
    first
      | (rw [werner.weighted_min_eq_guard]; exact allFinite_guard _)
      | simp [werner.weighted_min, zadeh.min, allFinite]

/-! ## Claims -/

/-- C1: every operator of the library (`zadeh::min`, `zadeh::max`,
`einstein::product`, `einstein::sum`, `werner::weighted_min`, and their aliases,
which coincide with them) returns an absent result (`none`) if and only if some
input is NaN or infinite or the computed result is NaN or infinite; consequently
whenever an operator returns `some x`, the value `x` is finite. -/
theorem claim_c1_operators_absent_iff_nonfinite (a b w : F32) :
    (zadeh.min a b = none ↔
      (a.isNan = true ∨ a.isInfinite = true ∨ b.isNan = true ∨ b.isInfinite = true ∨
        (zadeh.minRaw a b).isNan = true ∨ (zadeh.minRaw a b).isInfinite = true)) ∧
    (zadeh.max a b = none ↔
      (a.isNan = true ∨ a.isInfinite = true ∨ b.isNan = true ∨ b.isInfinite = true ∨
        (zadeh.maxRaw a b).isNan = true ∨ (zadeh.maxRaw a b).isInfinite = true)) ∧
    (einstein.product a b = none ↔
      (a.isNan = true ∨ a.isInfinite = true ∨ b.isNan = true ∨ b.isInfinite = true ∨
        (einstein.productRaw a b).isNan = true ∨
        (einstein.productRaw a b).isInfinite = true)) ∧
    (einstein.sum a b = none ↔
      (a.isNan = true ∨ a.isInfinite = true ∨ b.isNan = true ∨ b.isInfinite = true ∨
        (einstein.sumRaw a b).isNan = true ∨
        (einstein.sumRaw a b).isInfinite = true)) ∧
    (werner.weighted_min w a b = none ↔
      (w.isNan = true ∨ w.isInfinite = true ∨
        a.isNan = true ∨ a.isInfinite = true ∨ b.isNan = true ∨ b.isInfinite = true ∨
        (werner.weightedRaw w a b (zadeh.minRaw a b)).isNan = true ∨
        (werner.weightedRaw w a b (zadeh.minRaw a b)).isInfinite = true)) ∧
    zadeh.or a b = zadeh.min a b ∧
    zadeh.and a b = zadeh.max a b ∧
    einstein.or a b = einstein.product a b ∧
    einstein.and a b = einstein.sum a b ∧
    werner.fuzzy_and w a b = werner.weighted_min w a b ∧
    allFinite (zadeh.min a b) = true ∧
    allFinite (zadeh.max a b) = true ∧
    allFinite (einstein.product a b) = true ∧
    allFinite (einstein.sum a b) = true ∧
    allFinite (werner.weighted_min w a b) = true :=
  ⟨zadeh.min_none_iff a b, zadeh.max_none_iff a b, einstein.product_none_iff a b,
   einstein.sum_none_iff a b, werner.weighted_min_none_iff w a b,
   rfl, rfl, rfl, rfl, rfl,
   zadeh.min_allFinite a b, zadeh.max_allFinite a b, einstein.product_allFinite a b,
   einstein.sum_allFinite a b, werner.weighted_min_allFinite w a b⟩

/-- C2: for finite `a`, `b` in `[0,1]`, `zadeh::min` returns `some` of the
mathematical minimum and `zadeh::max` `some` of the mathematical maximum, with
the tie-break that min yields `b` when `a > b` and `a` otherwise, and max
yields `a` when `a > b` and `b` otherwise. -/
theorem claim_c2_zadeh_min_max (qa qb : ℚ) (h0a : 0 ≤ qa) (h1a : qa ≤ 1)
    (h0b : 0 ≤ qb) (h1b : qb ≤ 1) :
    zadeh.min (F32.fin qa) (F32.fin qb) = some (F32.fin (Min.min qa qb)) ∧
    zadeh.max (F32.fin qa) (F32.fin qb) = some (F32.fin (Max.max qa qb)) ∧
    zadeh.min (F32.fin qa) (F32.fin qb) =
      some (if qb < qa then F32.fin qb else F32.fin qa) ∧
    zadeh.max (F32.fin qa) (F32.fin qb) =
      some (if qb < qa then F32.fin qa else F32.fin qb) := by
  refine ⟨?_, ?_, zadeh.min_fin qa qb, zadeh.max_fin qa qb⟩
  · rw [zadeh.min_fin]
    rcases le_or_lt qa qb with h | h
    · rw [if_neg (not_lt.mpr h), min_eq_left h]
    · rw [if_pos h, min_eq_right h.le]
  · rw [zadeh.max_fin]
    rcases le_or_lt qa qb with h | h
    · rw [if_neg (not_lt.mpr h), max_eq_right h]
    · rw [if_pos h, max_eq_left h.le]

/-- Witness for C2 at `a = 1/3`, `b = 1/2`. -/
theorem claim_c2_zadeh_min_max_witness :
    (0 ≤ (1/3 : ℚ)) ∧ ((1/3 : ℚ) ≤ 1) ∧ (0 ≤ (1/2 : ℚ)) ∧ ((1/2 : ℚ) ≤ 1) ∧
    (zadeh.min (F32.fin (1/3)) (F32.fin (1/2)) = some (F32.fin (Min.min (1/3) (1/2))) ∧
     zadeh.max (F32.fin (1/3)) (F32.fin (1/2)) = some (F32.fin (Max.max (1/3) (1/2))) ∧
     zadeh.min (F32.fin (1/3)) (F32.fin (1/2)) =
       some (if (1/2 : ℚ) < 1/3 then F32.fin (1/2) else F32.fin (1/3)) ∧
     zadeh.max (F32.fin (1/3)) (F32.fin (1/2)) =
       some (if (1/2 : ℚ) < 1/3 then F32.fin (1/3) else F32.fin (1/2))) :=
  ⟨by norm_num, by norm_num, by norm_num, by norm_num,
   claim_c2_zadeh_min_max (1/3) (1/2) (by norm_num) (by norm_num)
     (by norm_num) (by norm_num)⟩

/-- C3: for finite `a`, `b`, `einstein::product` computes
`(a*b) / (1 + ((1-a)*(1-b)))` with exactly that grouping, returning `some` of
it when finite and `none` when NaN or infinite; in particular
`einstein::product(0.5, 0.5)` returns `Some(0.2)`. -/
theorem claim_c3_einstein_product (a b : F32) (ha : a.isFinite = true)
    (hb : b.isFinite = true) :
    (einstein.product a b =
      if (einstein.productRaw a b).isNan || (einstein.productRaw a b).isInfinite
      then none else some (einstein.productRaw a b)) ∧
    einstein.product (F32.fin (1/2)) (F32.fin (1/2)) = some (F32.fin (1/5)) := by
  refine ⟨?_, ?_⟩
  · cases a with
    | fin qa =>
        cases b with
        | fin qb => rfl
        | inf => simp at hb
        | neginf => simp at hb
        | nan => simp at hb
    | inf => simp at ha
    | neginf => simp at ha
    | nan => simp at ha
  · rw [einstein.product_fin]
    norm_num

/-- Witness for C3 at `a = 1/3`, `b = 2/3`. -/
theorem claim_c3_einstein_product_witness :
    (F32.fin (1/3)).isFinite = true ∧ (F32.fin (2/3)).isFinite = true ∧
    ((einstein.product (F32.fin (1/3)) (F32.fin (2/3)) =
        if (einstein.productRaw (F32.fin (1/3)) (F32.fin (2/3))).isNan ||
           (einstein.productRaw (F32.fin (1/3)) (F32.fin (2/3))).isInfinite
        then none else some (einstein.productRaw (F32.fin (1/3)) (F32.fin (2/3)))) ∧
      einstein.product (F32.fin (1/2)) (F32.fin (1/2)) = some (F32.fin (1/5))) :=
  ⟨rfl, rfl, claim_c3_einstein_product (F32.fin (1/3)) (F32.fin (2/3)) rfl rfl⟩

/-- C4: for finite `a`, `b`, `einstein::sum` computes `(a+b) / (1 + (a*b))`,
returning `some` of it when finite and `none` when NaN or infinite; in
particular `einstein::sum(0.5, 0.5)` returns `Some(0.8)`. -/
theorem claim_c4_einstein_sum (a b : F32) (ha : a.isFinite = true)
    (hb : b.isFinite = true) :
    (einstein.sum a b =
      if (einstein.sumRaw a b).isNan || (einstein.sumRaw a b).isInfinite
      then none else some (einstein.sumRaw a b)) ∧
    einstein.sum (F32.fin (1/2)) (F32.fin (1/2)) = some (F32.fin (4/5)) := by
  constructor
  · cases a with
    | fin qa =>
        cases b with
        | fin qb => rfl
        | inf => simp at hb
        | neginf => simp at hb
        | nan => simp at hb
    | inf => simp at ha
    | neginf => simp at ha
    | nan => simp at ha
  · rw [einstein.sum_fin]
    norm_num

/-- Witness for C4 at `a = 1/3`, `b = 2/3`. -/
theorem claim_c4_einstein_sum_witness :
    (F32.fin (1/3)).isFinite = true ∧ (F32.fin (2/3)).isFinite = true ∧
    ((einstein.sum (F32.fin (1/3)) (F32.fin (2/3)) =
        if (einstein.sumRaw (F32.fin (1/3)) (F32.fin (2/3))).isNan ||
           (einstein.sumRaw (F32.fin (1/3)) (F32.fin (2/3))).isInfinite
        then none else some (einstein.sumRaw (F32.fin (1/3)) (F32.fin (2/3)))) ∧
      einstein.sum (F32.fin (1/2)) (F32.fin (1/2)) = some (F32.fin (4/5))) :=
  ⟨rfl, rfl, claim_c4_einstein_sum (F32.fin (1/3)) (F32.fin (2/3)) rfl rfl⟩

/-- C5: for all finite inputs, `zadeh::min`, `zadeh::max`, `einstein::product`
and `einstein::sum` are commutative. -/
theorem claim_c5_commutative (qa qb : ℚ) :
    zadeh.min (F32.fin qa) (F32.fin qb) = zadeh.min (F32.fin qb) (F32.fin qa) ∧
    zadeh.max (F32.fin qa) (F32.fin qb) = zadeh.max (F32.fin qb) (F32.fin qa) ∧
    einstein.product (F32.fin qa) (F32.fin qb) =
      einstein.product (F32.fin qb) (F32.fin qa) ∧
    einstein.sum (F32.fin qa) (F32.fin qb) =
      einstein.sum (F32.fin qb) (F32.fin qa) := by
  refine ⟨?_, ?_, ?_, ?_⟩
  · rw [zadeh.min_fin, zadeh.min_fin]
    rcases lt_trichotomy qa qb with h | h | h
    · rw [if_neg h.asymm, if_pos h]
    · subst h
      rfl
    · rw [if_pos h, if_neg h.asymm]
  · rw [zadeh.max_fin, zadeh.max_fin]
    rcases lt_trichotomy qa qb with h | h | h
    · rw [if_neg h.asymm, if_pos h]
    · subst h
      rfl
    · rw [if_pos h, if_neg h.asymm]
  · rw [einstein.product_fin, einstein.product_fin, mul_comm qa qb,
      mul_comm (1 - qa) (1 - qb)]
  · rw [einstein.sum_fin, einstein.sum_fin, mul_comm qa qb, add_comm qa qb]

/-- C6: `einstein::sum(0, b)` returns `Some(b)` for every finite `b`, and
`einstein::product(a, 1)` returns `some` of a finite value for every finite
`a` in `[0,1]`. -/
theorem claim_c6_boundary (qb qa : ℚ) (h0 : 0 ≤ qa) (h1 : qa ≤ 1) :
    einstein.sum (F32.fin 0) (F32.fin qb) = some (F32.fin qb) ∧
    ∃ r : ℚ, einstein.product (F32.fin qa) (F32.fin 1) = some (F32.fin r) := by
  constructor
  · rw [einstein.sum_fin]
    norm_num
  · refine ⟨qa, ?_⟩
    rw [einstein.product_fin]
    norm_num

/-- Witness for C6 at `b = 2/5`, `a = 3/4`. -/
theorem claim_c6_boundary_witness :
    (0 ≤ (3/4 : ℚ)) ∧ ((3/4 : ℚ) ≤ 1) ∧
    (einstein.sum (F32.fin 0) (F32.fin (2/5)) = some (F32.fin (2/5)) ∧
     ∃ r : ℚ, einstein.product (F32.fin (3/4)) (F32.fin 1) = some (F32.fin r)) :=
  ⟨by norm_num, by norm_num,
   claim_c6_boundary (2/5) (3/4) (by norm_num) (by norm_num)⟩

/-- C7: for finite `weight`, `a`, `b`, if `zadeh::min(a,b)` returns `Some(x)`
then `werner::weighted_min(weight,a,b)` computes
`((weight*x) + ((1-weight)*(a+b))) / 2`, returning `some` of that value when it
is finite and `none` when it is NaN or infinite; in particular
`werner::weighted_min(0.5, 0.3, 0.7)` returns `Some(0.325)`. -/
theorem claim_c7_werner_weighted_min :
    (∀ w a b x : F32, w.isFinite = true → a.isFinite = true → b.isFinite = true →
      zadeh.min a b = some x →
      werner.weighted_min w a b =
        if (werner.weightedRaw w a b x).isNan ||
           (werner.weightedRaw w a b x).isInfinite
        then none else some (werner.weightedRaw w a b x)) ∧
    werner.weighted_min (F32.fin (1/2)) (F32.fin (3/10)) (F32.fin (7/10)) =
      some (F32.fin (13/40)) := by
  constructor
  · intro w a b x hw ha hb hmin
    unfold werner.weighted_min
    rw [hmin]
  · rw [werner.weighted_min_fin]
    norm_num

/-- Witness for C7 at `weight = 1/2`, `a = 3/10`, `b = 7/10`, `x = 3/10`. -/
theorem claim_c7_werner_weighted_min_witness :
    (F32.fin (1/2)).isFinite = true ∧ (F32.fin (3/10)).isFinite = true ∧
    (F32.fin (7/10)).isFinite = true ∧
    zadeh.min (F32.fin (3/10)) (F32.fin (7/10)) = some (F32.fin (3/10)) ∧
    werner.weighted_min (F32.fin (1/2)) (F32.fin (3/10)) (F32.fin (7/10)) =
      (if (werner.weightedRaw (F32.fin (1/2)) (F32.fin (3/10)) (F32.fin (7/10))
              (F32.fin (3/10))).isNan ||
          (werner.weightedRaw (F32.fin (1/2)) (F32.fin (3/10)) (F32.fin (7/10))
              (F32.fin (3/10))).isInfinite
       then none
       else some (werner.weightedRaw (F32.fin (1/2)) (F32.fin (3/10))
              (F32.fin (7/10)) (F32.fin (3/10)))) :=
  ⟨rfl, rfl, rfl, by rw [zadeh.min_fin]; norm_num,
   claim_c7_werner_weighted_min.1 (F32.fin (1/2)) (F32.fin (3/10)) (F32.fin (7/10))
     (F32.fin (3/10)) rfl rfl rfl (by rw [zadeh.min_fin]; norm_num)⟩

/-- C8: whenever `zadeh::min(a,b)` returns `none`, `werner::weighted_min(w,a,b)`
also returns `none`, for any `w`. -/
theorem claim_c8_werner_none_propagates (w a b : F32)
    (h : zadeh.min a b = none) : werner.weighted_min w a b = none := by
  unfold werner.weighted_min
  rw [h]

/-- Witness for C8 at `w = 1`, `a = NaN`, `b = 0`. -/
theorem claim_c8_werner_none_propagates_witness :
    zadeh.min F32.nan (F32.fin 0) = none ∧
    werner.weighted_min (F32.fin 1) F32.nan (F32.fin 0) = none :=
  ⟨rfl, claim_c8_werner_none_propagates (F32.fin 1) F32.nan (F32.fin 0) rfl⟩

/-- C9: every alias returns exactly the result of its canonical operator:
`zadeh::or = zadeh::min`, `zadeh::and = zadeh::max`,
`einstein::or = einstein::product`, `einstein::and = einstein::sum`,
`werner::fuzzy_and = werner::weighted_min`. -/
theorem claim_c9_aliases (a b w : F32) :
    zadeh.or a b = zadeh.min a b ∧
    zadeh.and a b = zadeh.max a b ∧
    einstein.or a b = einstein.product a b ∧
    einstein.and a b = einstein.sum a b ∧
    werner.fuzzy_and w a b = werner.weighted_min w a b :=
  ⟨rfl, rfl, rfl, rfl, rfl⟩

/-- C10: for finite `a`, `b`, when `werner::weighted_min` is called with weight
exactly `1` and returns `Some(r)`, the result `r` is half the Zadeh minimum,
because the formula divides the whole blended expression by 2 even though the
averaging coefficient `1 - weight` is zero. -/
theorem claim_c10_weight_one_halves (qa qb : ℚ) (r : F32) (x : ℚ)
    (hr : werner.weighted_min (F32.fin 1) (F32.fin qa) (F32.fin qb) = some r)
    (hx : zadeh.min (F32.fin qa) (F32.fin qb) = some (F32.fin x)) :
    r = F32.fin (x / 2) := by
  rw [werner.weighted_min_fin] at hr
  rw [zadeh.min_fin] at hx
  rcases lt_or_le qb qa with h | h
  · rw [if_pos h] at hr hx
    simp only [Option.some.injEq, F32.fin.injEq] at hr hx
    subst hx
    rw [← hr]
    congr 1
    ring
  · rw [if_neg (not_lt.mpr h)] at hr hx
    simp only [Option.some.injEq, F32.fin.injEq] at hr hx
    subst hx
    rw [← hr]
    congr 1
    ring

/-- Witness for C10 at `a = 3/10`, `b = 7/10`: the operator returns
`Some(3/20)`, half the minimum `3/10`. -/
theorem claim_c10_weight_one_halves_witness :
    werner.weighted_min (F32.fin 1) (F32.fin (3/10)) (F32.fin (7/10)) =
      some (F32.fin (3/20)) ∧
    zadeh.min (F32.fin (3/10)) (F32.fin (7/10)) = some (F32.fin (3/10)) ∧
    F32.fin (3/20) = F32.fin ((3/10 : ℚ) / 2) :=
  ⟨by rw [werner.weighted_min_fin]; norm_num,
   by rw [zadeh.min_fin]; norm_num,
   claim_c10_weight_one_halves (3/10) (7/10) (F32.fin (3/20)) (3/10)
     (by rw [werner.weighted_min_fin]; norm_num)
     (by rw [zadeh.min_fin]; norm_num)⟩
